import Mathlib

/-!
Verification of the market-data scoring pipeline in `src/app.py`.

We shallowly embed the pure computational core of the script:
closing prices are modelled as exact rationals (`ℚ`) standing in for the
floats of the source, volumes as naturals (`yfinance` daily volumes are
non-negative integers), and a pandas DataFrame row as a `PricePoint`.
A DataFrame of price history is a `List PricePoint` in ascending date
order, so `df.iloc[-1]` is the last list element and a trailing rolling
window is a suffix of the list.
-/

namespace ProTrader

/-- One trading-session record (a row of the fetched DataFrame).  Only the
`Close` and `Volume` columns are read by the scored pipeline, so the other
OHLC columns are not carried. -/
structure PricePoint where
  close : ℚ
  volume : ℕ
deriving DecidableEq

/-- The `Close` column of the DataFrame. -/
def closesOf (df : List PricePoint) : List ℚ := df.map (fun p => p.close)

/-- The `Volume` column of the DataFrame, cast to `ℚ` as pandas does for means. -/
def volsOf (df : List PricePoint) : List ℚ := df.map (fun p => (p.volume : ℚ))

/-- The trailing window of `k` elements of a column (the elements a pandas
`rolling(k)` window sees at the last row). -/
def lastWindow (k : ℕ) (l : List ℚ) : List ℚ := l.drop (l.length - k)

/-- `series.rolling(k).mean().iloc[-1]`: the simple mean of the trailing `k`
values, `none` (pandas `NaN`) while fewer than `k` values exist. -/
def rollingMeanLast (k : ℕ) (l : List ℚ) : Option ℚ :=
  if l.length < k then none else some ((lastWindow k l).sum / (k : ℚ))

/-- The latest MA20 value (`df['Close'].rolling(20).mean().iloc[-1]`),
as the rational it equals once at least 20 rows exist. -/
def ma20Last (df : List PricePoint) : ℚ := (lastWindow 20 (closesOf df)).sum / 20

/-- The latest MA60 value (`df['Close'].rolling(60).mean().iloc[-1]`). -/
def ma60Last (df : List PricePoint) : ℚ := (lastWindow 60 (closesOf df)).sum / 60

/-- `df['Volume'].rolling(5).mean().iloc[-1]`, the 5-session mean volume. -/
def volMa5Last (df : List PricePoint) : ℚ := (lastWindow 5 (volsOf df)).sum / 5

/-- `df.iloc[-1]` (junk default for the empty frame, never reached where used). -/
def lastPt (df : List PricePoint) : PricePoint := df.getLastD ⟨0, 0⟩

/-- `df.iloc[-2]` (junk default, never reached where used). -/
def prevPt (df : List PricePoint) : PricePoint := df.dropLast.getLastD ⟨0, 0⟩

/-- `calculate_score` of `src/app.py` (lines 121-139).  The `pd.isna` guard on
the latest MA20/MA60 is the `= none` test: the rolling means are `NaN`
exactly while the window has not filled, and once they are not `NaN` the
column values read by the rules are `ma20Last`/`ma60Last`.  The
`try/except` of the source can only fire on malformed frames (missing
columns), which the modelled pipeline never builds, so it has no
counterpart here.  `1.5` is the exact `3 / 2`. -/
def calculate_score (df : List PricePoint) : ℤ :=
  if df.length < 60 then 50
  else if rollingMeanLast 20 (closesOf df) = none ∨ rollingMeanLast 60 (closesOf df) = none
  then 50
  else
    let last := lastPt df
    let prev := prevPt df
    let ma20 := ma20Last df
    let ma60 := ma60Last df
    let s1 : ℤ := if ma20 > ma60 ∧ last.close > ma20 then 50 + 25
      else if last.close < ma60 then 50 - 25 else 50
    let s2 : ℤ := if last.close > ma20 then s1 + 10 else s1
    let vol_ma5 : ℚ := volMa5Last df
    let s3 : ℤ := if (last.volume : ℚ) > vol_ma5 * (3 / 2) ∧ last.close > prev.close
      then s2 + 15 else s2
    min 100 (max 0 s3)

/-- The reference ordered rule chain, transcribed from the spec sentences
cited by C1 (base 50; trend rule `+25`/`-25`; support rule `+10`; volume
rule `+15` gated on `vol_ma5 > 0` and `latest_volume / vol_ma5 > 1.5` and a
rising close; clamp to `[0, 100]`).  The claim only constrains series of
length at least 60 with defined latest MA20/MA60, so no guards appear. -/
def specScore (df : List PricePoint) : ℤ :=
  let last := lastPt df
  let prev := prevPt df
  let ma20 := ma20Last df
  let ma60 := ma60Last df
  let s1 : ℤ := if ma20 > ma60 ∧ last.close > ma20 then 50 + 25
    else if last.close < ma60 then 50 - 25 else 50
  let s2 : ℤ := if last.close > ma20 then s1 + 10 else s1
  let vol_ma5 : ℚ := volMa5Last df
  let s3 : ℤ := if 0 < vol_ma5 ∧ (last.volume : ℚ) / vol_ma5 > 3 / 2 ∧ last.close > prev.close
    then s2 + 15 else s2
  min 100 (max 0 s3)

/-- The trend label attached to a score in `batch_results`
(`src/app.py` line 289): the coarse two-threshold classification. -/
def trendLabel (score : ℤ) : String :=
  if score ≥ 70 then "多頭" else if score ≤ 30 then "空頭" else "盤整"

/-- A 60-session sample on which all three scoring rules fire: 40 flat
sessions, 19 higher ones, and a surging final session. -/
def witDF : List PricePoint :=
  List.replicate 40 ⟨10, 100⟩ ++ List.replicate 19 ⟨20, 100⟩ ++ [⟨30, 1000⟩]

/-- A 10-session sample (insufficient history). -/
def c2df : List PricePoint := List.replicate 10 ⟨7, 3⟩

/-- The sidebar market radio selection: `美股 (US)` or `台股 (TW)`. -/
inductive Market
  | us
  | tw
deriving DecidableEq

/-- Python `str.upper()`; the tickers concerned are ASCII, where it is a
character-wise uppercase map. -/
def pyUpper (s : List Char) : List Char := s.map Char.toUpper

/-- Python `str.strip()`: drop whitespace from both ends. -/
def pyStrip (s : List Char) : List Char :=
  ((s.dropWhile Char.isWhitespace).reverse.dropWhile Char.isWhitespace).reverse

/-- Python `str.isdigit()` on ASCII input: non-empty and all decimal digits. -/
def pyIsdigit (s : List Char) : Bool := !s.isEmpty && s.all Char.isDigit

/-- Python `str.endswith(suf)`: `suf` is a suffix of the string. -/
def pyEndswith (suf s : List Char) : Bool := decide (suf <:+ s)

/-- The fixed domestic-market suffix `".TW"`. -/
def suffixTW : List Char := ".TW".data

/-- The ticker normalization step of `process_stock_data`
(`src/app.py` lines 92-95): `ticker.upper().strip()`, then append `".TW"`
exactly when the selected market is 台股 (TW), the token does not already
end in `".TW"`, and the token is all digits. -/
def normalizeTicker (raw : List Char) (market : Market) : List Char :=
  let t := pyStrip (pyUpper raw)
  if (market == Market.tw) && !(pyEndswith suffixTW t) && pyIsdigit t then t ++ suffixTW
  else t

/-- A fetched tabular dataset as the fetch loop sees it: its (level-0)
column names and its number of rows.  `yf.download` may return a
`MultiIndex` frame; `df.columns.get_level_values(0)` keeps exactly these
level-0 names, so `cols` models the column index after that collapse. -/
structure RawDF where
  cols : List String
  nrows : ℕ
deriving DecidableEq

/-- `df.loc[:, ~df.columns.duplicated()]`: keep the first occurrence of
every column name. -/
def dropDupCols (l : List String) : List String :=
  l.foldl (fun acc c => if c ∈ acc then acc else acc ++ [c]) []

/-- The column normalization applied inside the fetch loop
(`src/app.py` lines 48-50). -/
def fixDF (d : RawDF) : RawDF := ⟨dropDupCols d.cols, d.nrows⟩

/-- One injected upstream attempt outcome: an exception from
`yf.download`, or a returned dataset. -/
inductive FetchOutcome
  | exn
  | ok (d : RawDF)
deriving DecidableEq

/-- What a single attempt of the loop body produces: `none` if the attempt
raised, or raised no data worth returning (empty frame or no `Close`
column after normalization); otherwise the normalized frame. -/
def attemptResult : FetchOutcome → Option RawDF
  | .exn => none
  | .ok d =>
      let d2 := fixDF d
      if d2.nrows ≠ 0 ∧ "Close" ∈ d2.cols then some d2 else none

/-- The retry loop of `fetch_data_robust` (`src/app.py` lines 37-57) over an
injected sequence of upstream outcomes (`att i` is what the `i`-th
`yf.download` call does; the random sleep is irrelevant to the result and
not modelled).  Returns the fetched frame (or `none`, the source's `None`)
together with the number of attempts made. -/
def fetchGo (att : ℕ → FetchOutcome) : ℕ → ℕ → Option RawDF × ℕ
  | 0, i => (none, i)
  | fuel + 1, i =>
    match att i with
    | .exn => fetchGo att fuel (i + 1)
    | .ok d =>
        let d2 := fixDF d
        if d2.nrows ≠ 0 ∧ "Close" ∈ d2.cols then (some d2, i + 1)
        else fetchGo att fuel (i + 1)

/-- `fetch_data_robust` with `max_retries = 3`. -/
def fetch_data_robust (att : ℕ → FetchOutcome) : Option RawDF × ℕ := fetchGo att 3 0

/-- An upstream stub that fails twice, then succeeds with a usable frame. -/
def witAtt : ℕ → FetchOutcome :=
  fun i => if i < 2 then .exn else .ok ⟨["Close", "Open"], 250⟩

/-- Minimum of a nonempty list of rationals (`Series.min`); junk 0 on []. -/
def qmin : List ℚ → ℚ
  | [] => 0
  | x :: xs => xs.foldl min x

/-- Maximum of a nonempty list of rationals (`Series.max`); junk 0 on []. -/
def qmax : List ℚ → ℚ
  | [] => 0
  | x :: xs => xs.foldl max x

/-- The 31 bin edges `pd.cut(xs, bins=30)` uses: `linspace(mn, mx, 31)`;
when `mn = mx` both ends are first moved out by 0.1% (or by 0.001 at zero),
otherwise the leftmost edge is afterwards lowered by 0.1% of the range so
the minimum falls inside the first right-closed interval. -/
def cutEdges (xs : List ℚ) : List ℚ :=
  let mn := qmin xs
  let mx := qmax xs
  if mn = mx then
    let mn2 := if mn ≠ 0 then mn - |mn| / 1000 else mn - 1 / 1000
    let mx2 := if mx ≠ 0 then mx + |mx| / 1000 else mx + 1 / 1000
    (List.range 31).map (fun i => mn2 + (mx2 - mn2) * i / 30)
  else
    (List.range 31).map
      (fun i => if i = 0 then mn - (mx - mn) / 1000 else mn + (mx - mn) * i / 30)

/-- Membership of a close price in bin `i` (a right-closed interval). -/
def inBin (edges : List ℚ) (i : ℕ) (c : ℚ) : Bool :=
  decide (edges.getD i 0 < c ∧ c ≤ edges.getD (i + 1) 0)

/-- `df_recent.groupby(bins, observed=False)['Volume'].sum()`: for each of
the 30 categories, the summed volume of the rows whose close falls in it
(0 for an empty bin). -/
def volProfileBins (r : List PricePoint) : List ℚ :=
  let edges := cutEdges (closesOf r)
  (List.range 30).map
    (fun i => ((r.filter (fun p => inBin edges i p.close)).map (fun p => (p.volume : ℚ))).sum)

/-- `df.tail(120)`: the trailing `min(120, len)` rows. -/
def tail120 (df : List PricePoint) : List PricePoint := df.drop (df.length - 120)

/-- The volume-profile computation of `process_stock_data`
(`src/app.py` lines 108-116): on a non-empty trailing window, the pair of
bin sums and bin edges (modelling the interval-indexed pandas Series);
`none` (the source's `None`) only when the window is empty.  With exact
rationals `pd.cut` raises on none of these inputs, so the `except` path
adds nothing. -/
def vol_profile (df : List PricePoint) : Option (List ℚ × List ℚ) :=
  let r := tail120 df
  if r.isEmpty then none else some (volProfileBins r, cutEdges (closesOf r))

/-- A single-session Series. -/
def c7one : List PricePoint := [⟨5, 7⟩]

/-- IEEE-754 outcome of `a / b` on exact operands: a finite quotient unless
`b = 0`, where numpy float division yields `±inf`, or `NaN` at `0/0`, and
raises no exception. -/
inductive FVal
  | fin (q : ℚ)
  | pinf
  | ninf
  | nan
deriving DecidableEq

/-- Float division `a / b` (see `FVal`). -/
def fdiv (a b : ℚ) : FVal :=
  if b ≠ 0 then .fin (a / b) else if 0 < a then .pinf else if a < 0 then .ninf else .nan

/-- Multiplication of such a value by the positive constant 100. -/
def fmul100 : FVal → FVal
  | .fin q => .fin (q * 100)
  | .pinf => .pinf
  | .ninf => .ninf
  | .nan => .nan

/-- `v > t` under IEEE comparison (`NaN` compares false). -/
def fgtQ : FVal → ℚ → Bool
  | .fin q, t => decide (t < q)
  | .pinf, _ => true
  | .ninf, _ => false
  | .nan, _ => false

/-- `v < t` under IEEE comparison (`NaN` compares false). -/
def fltQ : FVal → ℚ → Bool
  | .fin q, t => decide (q < t)
  | .pinf, _ => false
  | .ninf, _ => true
  | .nan, _ => false

/-- `Series.idxmax` over the bin sums: the index of the first maximal bin. -/
def idxmaxBin (bins : List ℚ) : ℕ :=
  (List.range bins.length).foldl
    (fun best i => if bins.getD best 0 < bins.getD i 0 then i else best) 0

/-- A row of the indicator table: indicator name, numeric value (`none`
renders as "-"; the source formats the number to 1-2 decimals), and status
text (the source appends the formatted max-volume price to the last row's
status; the fixed prefix is kept here). -/
structure ReportRow where
  name : String
  value : Option FVal
  status : String
deriving DecidableEq

/-- Junk default row for `List.getD`. -/
def defaultRow : ReportRow := ⟨"", none, ""⟩

/-- `generate_indicator_report` (`src/app.py` lines 166-198).  The source
also reads `df.iloc[-2]` into `prev` but never uses it.  The bias division
has no zero guard in the source, hence the `fdiv` float semantics; the
volume ratio, by contrast, is guarded (`if vol_ma5 > 0 else 0`). -/
def generate_indicator_report (df : List PricePoint) (vp : Option (List ℚ × List ℚ)) :
    List ReportRow :=
  if df.length < 60 then []
  else
    let last := lastPt df
    let ma20 := ma20Last df
    let ma60 := ma60Last df
    let ma20_status := if last.close > ma20 then "✅ 股價在月線之上" else "🔻 股價跌破月線"
    let ma60_status := if last.close > ma60 then "✅ 股價在季線之上" else "🔻 股價跌破季線"
    let bias := fmul100 (fdiv (last.close - ma20) ma20)
    let bias_status := if fgtQ bias 15 then "⚠️ 正乖離過大"
      else if fltQ bias (-15) then "⚡ 負乖離過大" else "👌 乖離率正常"
    let vol_ma5 := volMa5Last df
    let vol_rel := if 0 < vol_ma5 then (last.volume : ℚ) / vol_ma5 else 0
    let vol_status := if vol_rel > 3 / 2 then "🔥 爆量"
      else if vol_rel < 3 / 5 then "💤 量縮" else "⚖️ 溫和"
    let vpCell : Option FVal × String :=
      match vp with
      | none => (none, "無資料")
      | some (bins, edges) =>
          let i := idxmaxBin bins
          let maxPrice := (edges.getD i 0 + edges.getD (i + 1) 0) / 2
          (some (.fin maxPrice), if last.close > maxPrice then "🧱 支撐" else "🔨 壓力")
    [⟨"MA20 (月線)", some (.fin ma20), ma20_status⟩,
     ⟨"MA60 (季線)", some (.fin ma60), ma60_status⟩,
     ⟨"乖離率", some bias, bias_status⟩,
     ⟨"量能", some (.fin (last.volume : ℚ)), vol_status⟩,
     ⟨"籌碼大量區", vpCell.1, vpCell.2⟩]

/-- A 60-session sample whose latest MA20 is exactly zero while the latest
close is positive (the last 20 closes are 19 sessions at −1 and one at 19). -/
def c8df : List PricePoint :=
  List.replicate 40 ⟨5, 100⟩ ++ (List.replicate 19 ⟨-1, 100⟩ ++ [⟨19, 100⟩])

/-- One fetched headline record; `n.get('title')` can be absent. -/
structure NewsItem where
  title : Option String
deriving DecidableEq

/-- The fixed message returned when there is no news or no API key. -/
def noNewsMsg : String := "⚠️ 無法執行 AI 分析 (無新聞或 API Key)"

/-- The prompt built from the first five headlines (`f"- {n.get('title')}"`;
a missing title renders as Python's `None`) and the ticker. -/
def promptOf (news : List NewsItem) (tkr : String) : String :=
  let headlines := (news.take 5).map (fun n => "- " ++ n.title.getD "None")
  let txt := String.intercalate "\n" headlines
  "你是一位專業操盤手。請根據以下 " ++ tkr
    ++ " 的新聞標題，給出「三句話」總結：\n1. 市場情緒 (偏多/偏空)\n2. 核心原因\n3. 操作建議\n\n新聞標題：\n"
    ++ txt

/-- `analyze_ai` (`src/app.py` lines 141-164): the remote Gemini call is
injected as `generate`, which either returns the response text or fails
with the exception message the `except` branch interpolates. -/
def analyze_ai (news : List NewsItem) (tkr : String) (llm : Bool)
    (generate : String → Except String String) : String :=
  if news.isEmpty || !llm then noNewsMsg
  else
    match generate (promptOf news tkr) with
    | .ok t => t
    | .error e => "Gemini 分析錯誤: " ++ e

/-- A one-headline news list. -/
def c9news : List NewsItem := [⟨some "Fed cuts rates"⟩]

/-- One record of `st.session_state.watch_list`. -/
structure WatchEntry where
  ticker : String
  score : ℤ
  price : ℚ
deriving DecidableEq

/-- The guarded append of `src/app.py` lines 292-294: append the new record
only when no existing entry has the same Ticker. -/
def watchAppendIfNew (wl : List WatchEntry) (e : WatchEntry) : List WatchEntry :=
  if wl.any (fun d => d.ticker == e.ticker) then wl else wl ++ [e]

/-- The clear operation of `src/app.py` lines 340-342. -/
def watchCleared : List WatchEntry := []

/-- No two watch-list entries share a Ticker. -/
def tickersUnique (wl : List WatchEntry) : Prop := (wl.map (fun d => d.ticker)).Nodup

/-- A one-entry watch list. -/
def witWL : List WatchEntry := [⟨"2330.TW", 85, 100⟩]

/-- A fresh entry with a new Ticker. -/
def witEntry : WatchEntry := ⟨"NVDA", 90, 500⟩

/-! ### Supporting lemmas -/

theorem getLastD_mem {α : Type} : ∀ (l : List α) (d : α), l ≠ [] → l.getLastD d ∈ l := by
  intro l
  induction l with
  | nil => intro d h; exact absurd rfl h
  | cons a t ih =>
    intro d _
    rw [List.getLastD_cons]
    by_cases ht : t = []
    · subst ht; simp
    · exact List.mem_cons_of_mem a (ih a ht)

theorem getLastD_mem_drop {α : Type} :
    ∀ (l : List α) (d : α) (k : ℕ), k < l.length → l.getLastD d ∈ l.drop k := by
  intro l
  induction l with
  | nil => intro d k hk; simp at hk
  | cons a t ih =>
    intro d k hk
    cases k with
    | zero => simpa using getLastD_mem (a :: t) d (by simp)
    | succ k =>
      rw [List.drop_succ_cons, List.getLastD_cons]
      exact ih a k (by simpa using hk)

theorem getLastD_map {α β : Type} (f : α → β) :
    ∀ (l : List α) (d : α), (l.map f).getLastD (f d) = f (l.getLastD d) := by
  intro l
  induction l with
  | nil => intro d; simp
  | cons a t ih => intro d; rw [List.map_cons, List.getLastD_cons, List.getLastD_cons]; exact ih a

theorem window5_nonneg (df : List PricePoint) :
    ∀ x ∈ lastWindow 5 (volsOf df), 0 ≤ x := by
  intro x hx
  have hx2 : x ∈ volsOf df := List.drop_subset _ _ hx
  simp only [volsOf, List.mem_map] at hx2
  obtain ⟨p, -, rfl⟩ := hx2
  positivity

theorem volMa5Last_nonneg (df : List PricePoint) : 0 ≤ volMa5Last df := by
  unfold volMa5Last
  exact div_nonneg (List.sum_nonneg (window5_nonneg df)) (by norm_num)

theorem lastVol_mem_window (df : List PricePoint) (h : df ≠ []) :
    ((lastPt df).volume : ℚ) ∈ lastWindow 5 (volsOf df) := by
  have hL : (volsOf df).length = df.length := by simp [volsOf]
  have hlen : 0 < df.length := List.length_pos.mpr h
  have hmap := getLastD_map (fun p : PricePoint => (p.volume : ℚ)) df ⟨0, 0⟩
  have hgoal : (volsOf df).getLastD ((0 : ℕ) : ℚ) = ((lastPt df).volume : ℚ) := by
    simpa [volsOf, lastPt] using hmap
  rw [lastWindow, ← hgoal]
  exact getLastD_mem_drop _ _ _ (by omega)

/-- On non-negative volumes, the source's multiplicative surge test and the
spec's guarded-division surge test agree. -/
theorem vol_cond_iff (df : List PricePoint) (h : df ≠ []) :
    ((lastPt df).volume : ℚ) > volMa5Last df * (3 / 2)
      ↔ 0 < volMa5Last df ∧ ((lastPt df).volume : ℚ) / volMa5Last df > 3 / 2 := by
  have h0 : 0 ≤ volMa5Last df := volMa5Last_nonneg df
  rcases h0.lt_or_eq with hpos | hzero
  · constructor
    · intro hgt
      refine ⟨hpos, ?_⟩
      rw [gt_iff_lt, lt_div_iff₀ hpos]
      nlinarith [hgt]
    · rintro ⟨-, hr⟩
      rw [gt_iff_lt, lt_div_iff₀ hpos] at hr
      nlinarith [hr]
  · have hsum0 : (lastWindow 5 (volsOf df)).sum = 0 := by
      have hv : (lastWindow 5 (volsOf df)).sum / 5 = 0 := by
        rw [show (lastWindow 5 (volsOf df)).sum / 5 = volMa5Last df from rfl, ← hzero]
      rcases div_eq_zero_iff.mp hv with h' | h'
      · exact h'
      · norm_num at h'
    have hlast0 : ((lastPt df).volume : ℚ) = 0 := by
      have hle := List.single_le_sum (window5_nonneg df) _ (lastVol_mem_window df h)
      have hge : (0 : ℚ) ≤ ((lastPt df).volume : ℚ) := by positivity
      rw [hsum0] at hle
      linarith
    constructor
    · intro hgt
      rw [hlast0, ← hzero] at hgt
      norm_num at hgt
    · rintro ⟨hp, -⟩
      rw [← hzero] at hp
      exact absurd hp (lt_irrefl 0)

theorem rollingMeanLast20_eq (df : List PricePoint) (h : 20 ≤ df.length) :
    rollingMeanLast 20 (closesOf df) = some (ma20Last df) := by
  have hL : (closesOf df).length = df.length := by simp [closesOf]
  rw [rollingMeanLast, if_neg (by omega)]
  norm_num [ma20Last]

theorem rollingMeanLast60_eq (df : List PricePoint) (h : 60 ≤ df.length) :
    rollingMeanLast 60 (closesOf df) = some (ma60Last df) := by
  have hL : (closesOf df).length = df.length := by simp [closesOf]
  rw [rollingMeanLast, if_neg (by omega)]
  norm_num [ma60Last]

/-! ### Claims -/

/-- C1: for every Series of length at least 60 (whose latest MA20 and MA60
are therefore defined), `calculate_score` computes exactly the reference
ordered rule chain of the spec: base 50; `+25` if MA20 > MA60 and
close > MA20, else `-25` if close < MA60; `+10` if close > MA20; `+15` if
`vol_ma5 > 0`, `latest_volume / vol_ma5 > 1.5` and the close rose; clamped
to `[0, 100]`, each rule applying at most once in this order. -/
theorem c1_score_equals_spec_rule_chain (df : List PricePoint) (h : 60 ≤ df.length) :
    calculate_score df = specScore df := by
  have hne : df ≠ [] := by
    intro e
    rw [e] at h
    simp at h
  have h20 := rollingMeanLast20_eq df (by omega)
  have h60 := rollingMeanLast60_eq df h
  rw [calculate_score, if_neg (by omega), if_neg (by simp [h20, h60]), specScore]
  have hiff := vol_cond_iff df hne
  refine congrArg (fun z => min 100 (max 0 z)) (if_congr ?_ rfl rfl)
  constructor
  · rintro ⟨hv, hc⟩
    rcases hiff.mp hv with ⟨h1, h2⟩
    exact ⟨h1, h2, hc⟩
  · rintro ⟨h1, h2, hc⟩
    exact ⟨hiff.mpr ⟨h1, h2⟩, hc⟩

/-- Witness for C1 at the concrete 60-session sample `witDF`. -/
theorem c1_witness : calculate_score witDF = specScore witDF ∧ 60 ≤ witDF.length :=
  ⟨c1_score_equals_spec_rule_chain witDF (by norm_num [witDF]), by norm_num [witDF]⟩

/-- C2 (amended): for every Series with length < 60 the scoring operation
returns 50, bypassing all three rules, and the trend label the batch then
attaches to that score is "盤整" (consolidating) — the code has no
"insufficient data" label. -/
theorem c2_short_series_score_and_label (df : List PricePoint) (h : df.length < 60) :
    calculate_score df = 50 ∧ trendLabel (calculate_score df) = "盤整" := by
  have hs : calculate_score df = 50 := by rw [calculate_score, if_pos h]
  refine ⟨hs, ?_⟩
  rw [hs]
  decide

/-- Witness for C2 at the concrete 10-session sample `c2df`. -/
theorem c2_witness :
    calculate_score c2df = 50 ∧ trendLabel (calculate_score c2df) = "盤整" :=
  c2_short_series_score_and_label c2df (by norm_num [c2df])

/-- C2 counterexample: on a 10-session Series the score is 50 but the label
produced by the code is not "insufficient data" (it is "盤整"), refuting the
claimed label. -/
theorem c2_counterexample :
    calculate_score c2df = 50 ∧ trendLabel (calculate_score c2df) ≠ "insufficient data" := by
  have hs : calculate_score c2df = 50 := by
    rw [calculate_score, if_pos (by norm_num [c2df])]
  refine ⟨hs, ?_⟩
  rw [hs]
  decide

/-- C3: for every Series the score is an integer in `[0, 100]`, and when all
three rules fire at their stated magnitudes the result is exactly
`50 + 25 + 10 + 15 = 100`. -/
theorem c3_score_bounded_and_ceiling :
    (∀ df : List PricePoint, 0 ≤ calculate_score df ∧ calculate_score df ≤ 100)
    ∧ (∀ df : List PricePoint, 60 ≤ df.length →
        ma20Last df > ma60Last df → (lastPt df).close > ma20Last df →
        ((lastPt df).volume : ℚ) > volMa5Last df * (3 / 2) →
        (lastPt df).close > (prevPt df).close →
        calculate_score df = 100) := by
  constructor
  · intro df
    rw [calculate_score]
    split
    · omega
    · split
      · omega
      · have hb : ∀ x : ℤ, 0 ≤ min 100 (max 0 x) ∧ min 100 (max 0 x) ≤ 100 := by
          intro x
          omega
        exact hb _
  · intro df h h1 h2 h3 h4
    have h20 := rollingMeanLast20_eq df (by omega)
    have h60 := rollingMeanLast60_eq df h
    rw [calculate_score, if_neg (by omega), if_neg (by simp [h20, h60])]
    dsimp only
    rw [if_pos ⟨h3, h4⟩, if_pos h2, if_pos ⟨h1, h2⟩]
    omega

/-- Witness for C3: on `witDF` all three rules fire and the score is the
exact ceiling 100. -/
theorem c3_witness : calculate_score witDF = 100 := by
  have hma20 : ma20Last witDF = 41 / 2 := by
    simp [ma20Last, lastWindow, closesOf, witDF, List.replicate_succ]
    norm_num
  have hma60 : ma60Last witDF = 27 / 2 := by
    simp [ma60Last, lastWindow, closesOf, witDF, List.replicate_succ]
    norm_num
  have hv5 : volMa5Last witDF = 280 := by
    simp [volMa5Last, lastWindow, volsOf, witDF, List.replicate_succ]
    norm_num
  have hlc : (lastPt witDF).close = 30 := by simp [lastPt, witDF, List.replicate_succ]
  have hpc : (prevPt witDF).close = 20 := by simp [prevPt, witDF, List.replicate_succ]
  have hlv : (lastPt witDF).volume = 1000 := by simp [lastPt, witDF, List.replicate_succ]
  refine c3_score_bounded_and_ceiling.2 witDF (by norm_num [witDF]) ?_ ?_ ?_ ?_
  · rw [hma20, hma60]
    norm_num
  · rw [hma20, hlc]
    norm_num
  · rw [hv5, hlv]
    norm_num
  · rw [hlc, hpc]
    norm_num

/-- C6 (amended): the code classifies the score with the coarse two-threshold
scheme of `batch_results`: `score ≥ 70` gives "多頭" (bullish), `score ≤ 30`
gives "空頭" (bearish), everything in between gives "盤整" (consolidating);
there is no four-bucket scheme and no "mildly bullish" tier. -/
theorem c6_label_coarse_thresholds (s : ℤ) :
    (70 ≤ s → trendLabel s = "多頭")
    ∧ (s ≤ 30 → trendLabel s = "空頭")
    ∧ (30 < s → s < 70 → trendLabel s = "盤整") := by
  refine ⟨fun h => ?_, fun h => ?_, fun h h' => ?_⟩
  · rw [trendLabel, if_pos (by omega)]
  · rw [trendLabel, if_neg (by omega), if_pos (by omega)]
  · rw [trendLabel, if_neg (by omega), if_neg (by omega)]

/-- Witness for C6 at the boundary scores 75, 30 and 40. -/
theorem c6_witness :
    trendLabel 75 = "多頭" ∧ trendLabel 30 = "空頭" ∧ trendLabel 40 = "盤整" :=
  ⟨(c6_label_coarse_thresholds 75).1 (by norm_num),
   (c6_label_coarse_thresholds 30).2.1 (by norm_num),
   (c6_label_coarse_thresholds 40).2.2 (by norm_num) (by norm_num)⟩

/-- C6 counterexample: the claimed four buckets would put 74 and 75 in
different tiers and 60 and 74 in the same tier; the code does the opposite
(74 and 75 both map to "多頭", while 60 maps to "盤整"). -/
theorem c6_counterexample : trendLabel 74 = trendLabel 75 ∧ trendLabel 60 ≠ trendLabel 74 := by
  constructor <;> decide

/-- An all-digit token never ends in ".TW", so the `endswith` conjunct of the
normalization condition is redundant. -/
theorem pyIsdigit_no_tw_suffix (t : List Char) (hd : pyIsdigit t = true) :
    pyEndswith suffixTW t = false := by
  rw [pyEndswith, decide_eq_false_iff_not]
  rintro ⟨s, hs⟩
  have hW : 'W' ∈ t := hs ▸ List.mem_append.mpr (Or.inr (by decide))
  rw [pyIsdigit, Bool.and_eq_true] at hd
  have := List.all_eq_true.mp hd.2 'W' hW
  exact absurd this (by decide)

/-- C4 (amended): normalization is a pure transform of the raw token *and*
the selected market: the token is uppercased and trimmed; under the US
market it is always used verbatim, and under the TW market the ".TW" suffix
is appended exactly when the trimmed token is all digits (no region tag is
computed — the market is an input, not an output). -/
theorem c4_normalize_market_dependent (raw : List Char) :
    normalizeTicker raw Market.us = pyStrip (pyUpper raw)
    ∧ (pyIsdigit (pyStrip (pyUpper raw)) = true →
        normalizeTicker raw Market.tw = pyStrip (pyUpper raw) ++ suffixTW)
    ∧ (pyIsdigit (pyStrip (pyUpper raw)) = false →
        normalizeTicker raw Market.tw = pyStrip (pyUpper raw)) := by
  refine ⟨?_, fun hd => ?_, fun hd => ?_⟩
  · rw [normalizeTicker]
    simp
  · rw [normalizeTicker]
    have hsuf := pyIsdigit_no_tw_suffix _ hd
    simp [hsuf, hd]
  · rw [normalizeTicker]
    simp [hd]

/-- Witness for C4: the TW-market examples of the claim hold, and "nvda" is
uppercased verbatim under either market. -/
theorem c4_witness :
    normalizeTicker " 2330 ".data Market.tw = "2330.TW".data
    ∧ normalizeTicker "nvda".data Market.tw = "NVDA".data
    ∧ normalizeTicker "nvda".data Market.us = "NVDA".data := by
  refine ⟨?_, ?_, ?_⟩
  · rw [(c4_normalize_market_dependent " 2330 ".data).2.1 (by decide)]
    decide
  · rw [(c4_normalize_market_dependent "nvda".data).2.2 (by decide)]
    decide
  · rw [(c4_normalize_market_dependent "nvda".data).1]
    decide

/-- C4 counterexample: with the US market selected, the all-digit token
"2330" is left without the domestic suffix, refuting the claim that for
every raw input an all-digit token becomes token+".TW". -/
theorem c4_counterexample :
    normalizeTicker "2330".data Market.us = "2330".data
    ∧ normalizeTicker "2330".data Market.us ≠ "2330.TW".data := by
  constructor <;> decide

/-- One unfolding step of the retry loop. -/
theorem fetchGo_step (att : ℕ → FetchOutcome) (fuel i : ℕ) :
    fetchGo att (fuel + 1) i =
      match attemptResult (att i) with
      | some d => (some d, i + 1)
      | none => fetchGo att fuel (i + 1) := by
  rw [fetchGo, attemptResult.eq_def]
  cases att i with
  | exn => rfl
  | ok d =>
    dsimp only
    split
    · rfl
    · rfl

/-- C5: the fetcher makes at most 3 attempts and never propagates an
upstream failure: for every injected outcome sequence, if the first usable
attempt among the first 3 is attempt `i`, the fetcher returns its
(column-normalized) frame after exactly `i + 1` attempts; if none of the 3
attempts yields a usable frame (exception, empty frame, or missing `Close`
column alike), it returns `none` after exactly 3 attempts. -/
theorem c5_fetch_bounded_retry (att : ℕ → FetchOutcome) :
    (fetch_data_robust att).2 ≤ 3
    ∧ (∀ i : ℕ, i < 3 → (∀ j : ℕ, j < i → attemptResult (att j) = none) →
        attemptResult (att i) ≠ none →
        fetch_data_robust att = (attemptResult (att i), i + 1))
    ∧ ((∀ j : ℕ, j < 3 → attemptResult (att j) = none) →
        fetch_data_robust att = (none, 3)) := by
  have e0 := fetchGo_step att 2 0
  have e1 := fetchGo_step att 1 1
  have e2 := fetchGo_step att 0 2
  rcases h0 : attemptResult (att 0) with - | d0
  · rcases h1 : attemptResult (att 1) with - | d1
    · rcases h2 : attemptResult (att 2) with - | d2
      · have hr : fetch_data_robust att = (none, 3) := by
          rw [fetch_data_robust, e0, h0, e1, h1, e2, h2, fetchGo]
        refine ⟨by rw [hr], fun i hi hprev hne => ?_, fun _ => hr⟩
        interval_cases i
        · exact absurd h0 hne
        · exact absurd h1 hne
        · exact absurd h2 hne
      · have hr : fetch_data_robust att = (some d2, 3) := by
          rw [fetch_data_robust, e0, h0, e1, h1, e2, h2]
        refine ⟨by rw [hr], fun i hi hprev hne => ?_, fun hall => ?_⟩
        · interval_cases i
          · exact absurd h0 hne
          · exact absurd h1 hne
          · rw [hr, h2]
        · exact absurd h2 (by rw [hall 2 (by omega)]; exact fun h => Option.noConfusion h)
    · have hr : fetch_data_robust att = (some d1, 2) := by
        rw [fetch_data_robust, e0, h0, e1, h1]
      refine ⟨by rw [hr]; omega, fun i hi hprev hne => ?_, fun hall => ?_⟩
      · interval_cases i
        · exact absurd h0 hne
        · rw [hr, h1]
        · exact absurd (hprev 1 (by omega)) (by rw [h1]; exact fun h => Option.noConfusion h)
      · exact absurd h1 (by rw [hall 1 (by omega)]; exact fun h => Option.noConfusion h)
  · have hr : fetch_data_robust att = (some d0, 1) := by
      rw [fetch_data_robust, e0, h0]
    refine ⟨by rw [hr]; omega, fun i hi hprev hne => ?_, fun hall => ?_⟩
    · interval_cases i
      · rw [hr, h0]
      · exact absurd (hprev 0 (by omega)) (by rw [h0]; exact fun h => Option.noConfusion h)
      · exact absurd (hprev 0 (by omega)) (by rw [h0]; exact fun h => Option.noConfusion h)
    · exact absurd h0 (by rw [hall 0 (by omega)]; exact fun h => Option.noConfusion h)

/-- Witness for C5: a stub failing twice then succeeding makes the fetcher
return the successful frame after exactly 3 attempts. -/
theorem c5_witness :
    fetch_data_robust witAtt = (attemptResult (witAtt 2), 3)
    ∧ attemptResult (witAtt 2) = some ⟨["Close", "Open"], 250⟩ := by
  refine ⟨(c5_fetch_bounded_retry witAtt).2.1 2 (by omega) (by decide) (by decide), by decide⟩

theorem tail120_length (df : List PricePoint) : (tail120 df).length = min 120 df.length := by
  simp only [tail120, List.length_drop]
  omega

theorem vol_profile_none_iff (df : List PricePoint) : vol_profile df = none ↔ df = [] := by
  have hlen := tail120_length df
  have hemp : (tail120 df).isEmpty = true ↔ df = [] := by
    rw [List.isEmpty_iff, ← List.length_eq_zero, hlen, ← List.length_eq_zero (l := df)]
    omega
  rw [vol_profile]
  by_cases he : (tail120 df).isEmpty = true
  · rw [if_pos he]
    simp [hemp.mp he]
  · rw [if_neg he]
    simp only [hemp] at he
    simp [he]

/-- C7 (amended): the profile is computed over the trailing
`min(120, len)` rows; it is absent exactly when that sub-window is empty
(so only for the empty Series), and every non-empty sub-window — even a
single point, for which `pd.cut` synthesizes a ±0.1% range — yields exactly
30 bins. -/
theorem c7_profile_window_and_bins (df : List PricePoint) :
    (tail120 df).length = min 120 df.length
    ∧ (vol_profile df = none ↔ df = [])
    ∧ (df ≠ [] → (vol_profile df).map (fun pr => pr.1.length) = some 30) := by
  refine ⟨tail120_length df, vol_profile_none_iff df, fun h => ?_⟩
  have hs : vol_profile df ≠ none := fun e => h ((vol_profile_none_iff df).mp e)
  rcases hv : vol_profile df with - | pr
  · exact absurd hv hs
  · have hb : pr.1 = volProfileBins (tail120 df) := by
      rw [vol_profile] at hv
      by_cases he : (tail120 df).isEmpty = true
      · rw [if_pos he] at hv
        exact Option.noConfusion hv
      · rw [if_neg he] at hv
        cases hv
        rfl
    simp [hb, volProfileBins]

/-- Witness for C7 at the single-session Series: the profile is present
with exactly 30 bins. -/
theorem c7_witness :
    (vol_profile c7one).map (fun pr => pr.1.length) = some 30
    ∧ (tail120 c7one).length = min 120 c7one.length :=
  ⟨(c7_profile_window_and_bins c7one).2.2 (by simp [c7one]),
   (c7_profile_window_and_bins c7one).1⟩

/-- C7 counterexample: a Series of length 1 has a sub-window of 1 < 2
points, yet the profile is not `None` — the code only checks for an empty
sub-window, refuting the claimed "fewer than 2 points" absence rule. -/
theorem c7_counterexample : vol_profile c7one ≠ none := by
  rw [vol_profile]
  simp [tail120, c7one]

/-- C8 (amended): for every series of length at least 60 the indicator
report always carries all five rows; the bias row is present with value
`(close − MA20)/MA20 · 100` whenever the latest MA20 is nonzero, and when
the latest MA20 is zero (with a positive close) the unguarded float
division makes the value `+inf` — the indicator is never degraded to
absent, and the engine is total, so it never crashes. -/
theorem c8_bias_never_absent (df : List PricePoint) (vp : Option (List ℚ × List ℚ))
    (h : 60 ≤ df.length) :
    (generate_indicator_report df vp).length = 5
    ∧ ((generate_indicator_report df vp).getD 2 defaultRow).name = "乖離率"
    ∧ (ma20Last df ≠ 0 →
        ((generate_indicator_report df vp).getD 2 defaultRow).value
          = some (.fin (((lastPt df).close - ma20Last df) / ma20Last df * 100)))
    ∧ (ma20Last df = 0 → 0 < (lastPt df).close →
        ((generate_indicator_report df vp).getD 2 defaultRow).value = some .pinf) := by
  rw [generate_indicator_report, if_neg (by omega)]
  dsimp only
  refine ⟨rfl, rfl, fun hne => ?_, fun hz hpos => ?_⟩
  · rw [fdiv, if_pos hne]
    rfl
  · have hbias : fmul100 (fdiv ((lastPt df).close - ma20Last df) (ma20Last df))
        = FVal.pinf := by
      rw [hz, fdiv, if_neg (by norm_num), if_pos (by simpa using hpos)]
      rfl
    rw [hbias]
    rfl

/-- Witness for C8 at `witDF`, whose latest MA20 is 41/2 ≠ 0. -/
theorem c8_witness :
    (generate_indicator_report witDF none).length = 5
    ∧ ((generate_indicator_report witDF none).getD 2 defaultRow).value
        = some (.fin (((lastPt witDF).close - ma20Last witDF) / ma20Last witDF * 100)) := by
  have h := c8_bias_never_absent witDF none (by norm_num [witDF])
  refine ⟨h.1, h.2.2.1 ?_⟩
  have hma : ma20Last witDF = 41 / 2 := by
    simp [ma20Last, lastWindow, closesOf, witDF, List.replicate_succ]
    norm_num
  rw [hma]
  norm_num

/-- C8 counterexample: on `c8df` the latest MA20 is exactly 0 and the close
is 19 > 0; the bias indicator is not degraded to absent — the report still
carries it, with the infinite value and the "excessive positive bias"
status computed from `19/0 = +inf`. -/
theorem c8_counterexample :
    ma20Last c8df = 0
    ∧ ((generate_indicator_report c8df none).getD 2 defaultRow).value = some FVal.pinf
    ∧ ((generate_indicator_report c8df none).getD 2 defaultRow).status = "⚠️ 正乖離過大" := by
  have hma : ma20Last c8df = 0 := by
    simp [ma20Last, lastWindow, closesOf, c8df, List.replicate_succ]
    norm_num
  have hlc : (lastPt c8df).close = 19 := by
    simp [lastPt, c8df, List.replicate_succ]
  have hlen : ¬(c8df.length < 60) := by norm_num [c8df]
  have hbias : fmul100 (fdiv ((lastPt c8df).close - ma20Last c8df) (ma20Last c8df))
      = FVal.pinf := by
    rw [hma, hlc, fdiv, if_neg (by norm_num), if_pos (by norm_num)]
    rfl
  refine ⟨hma, ?_, ?_⟩
  · rw [generate_indicator_report, if_neg hlen]
    dsimp only
    rw [hbias]
    rfl
  · rw [generate_indicator_report, if_neg hlen]
    dsimp only
    rw [hbias]
    rfl

/-- C9 (amended): the news summarization adapter is total (never raises):
with no headlines or no API key it returns the fixed combined
"cannot run AI analysis (no news or API key)" message, and on a remote
failure it returns "Gemini 分析錯誤: " followed by the exception text — a
message that varies with the error rather than a fixed string — while a
success returns the remote text unchanged. -/
theorem c9_ai_adapter_never_raises (news : List NewsItem) (tkr : String) (llm : Bool)
    (generate : String → Except String String) :
    ((news.isEmpty || !llm) = true → analyze_ai news tkr llm generate = noNewsMsg)
    ∧ (analyze_ai news tkr llm generate = noNewsMsg
       ∨ (∃ e, generate (promptOf news tkr) = .error e
            ∧ analyze_ai news tkr llm generate = "Gemini 分析錯誤: " ++ e)
       ∨ (∃ t, generate (promptOf news tkr) = .ok t
            ∧ analyze_ai news tkr llm generate = t)) := by
  constructor
  · intro h
    rw [analyze_ai, if_pos h]
  · by_cases h : (news.isEmpty || !llm) = true
    · left
      rw [analyze_ai, if_pos h]
    · rcases hg : generate (promptOf news tkr) with e | t
      · right
        left
        exact ⟨e, rfl, by rw [analyze_ai, if_neg h, hg]⟩
      · right
        right
        exact ⟨t, rfl, by rw [analyze_ai, if_neg h, hg]⟩

/-- Witness for C9: an empty headline list yields the fixed message. -/
theorem c9_witness :
    analyze_ai [] "TSLA" true (fun _ => Except.ok "fine") = noNewsMsg :=
  (c9_ai_adapter_never_raises [] "TSLA" true (fun _ => Except.ok "fine")).1 (by decide)

/-- C9 counterexample: two different remote failures produce two different
returned messages, refuting the claim that a remote failure yields a fixed
"AI unavailable" message. -/
theorem c9_counterexample :
    analyze_ai c9news "NVDA" true (fun _ => .error "quota exceeded")
      ≠ analyze_ai c9news "NVDA" true (fun _ => .error "network timeout") := by
  decide

/-- C10: the session watch list never gains two entries with the same
Ticker: the analysis pass appends a record only when no existing entry has
that Ticker, so the guarded append preserves Ticker-uniqueness, and the
only other operation (clear) trivially re-establishes it. -/
theorem c10_watchlist_tickers_unique (wl : List WatchEntry) (e : WatchEntry)
    (h : tickersUnique wl) :
    tickersUnique (watchAppendIfNew wl e) ∧ tickersUnique watchCleared := by
  constructor
  · rw [watchAppendIfNew]
    split
    · exact h
    · rename_i hany
      have hnot : e.ticker ∉ wl.map (fun d => d.ticker) := by
        intro hmem
        rcases List.mem_map.mp hmem with ⟨d, hd, hdt⟩
        exact hany (List.any_eq_true.mpr ⟨d, hd, by rw [beq_iff_eq, hdt]⟩)
      rw [tickersUnique, List.map_append]
      simp only [List.map_cons, List.map_nil]
      rw [List.nodup_append]
      exact ⟨h, List.nodup_singleton _, by simpa [List.disjoint_singleton] using hnot⟩
  · simp [tickersUnique, watchCleared]

/-- Witness for C10: appending a fresh Ticker to a singleton watch list
keeps the Tickers unique. -/
theorem c10_witness :
    tickersUnique (watchAppendIfNew witWL witEntry) ∧ tickersUnique watchCleared :=
  c10_watchlist_tickers_unique witWL witEntry (by simp [tickersUnique, witWL])

end ProTrader
